import Mathlib

/-!
Verification of the applenotescli repository: a shallow embedding of the
content extractor (`db.py`), the markup codec (`convert.py` /
`converters.py`), the AppleScript escaping layer (`applescript.py`) and
the command-line orchestration (`cli.py`), together with theorems that
settle the specification's claims about them.

Python strings are embedded as Lean `String`/`List Char` (Python indexing
and slicing is by code point, matching `List Char`); byte strings are
`List Nat`; library calls with no algorithmic content in the repository
(gzip decompression, the HTML tree produced by BeautifulSoup) are
modelled explicitly where noted.
-/

namespace AppleNotesCLI

/-! ## Generic helpers shared by the embeddings

`splitOnChar` mirrors Python's `str.split(sep)` for a one-character
separator; `pyJoin` mirrors `sep.join(parts)`; `pyStripL` mirrors
`str.strip()` over Python's full whitespace class `isPyWs`;
`countSubstr` counts the positions at which a pattern occurs in a
character list. -/

/-- Python `text.split(sep)` for a single-character separator: always
returns at least one (possibly empty) piece. -/
def splitOnChar (sep : Char) : List Char → List (List Char)
  | [] => [[]]
  | c :: rest =>
    let r := splitOnChar sep rest
    if c = sep then [] :: r
    else
      match r with
      | h :: t => (c :: h) :: t
      | [] => [[c]]

/-- Python `sep.join(parts)`. -/
def pyJoin (sep : String) : List String → String
  | [] => ""
  | [s] => s
  | s :: rest => s ++ sep ++ pyJoin sep rest

/-- Python's whitespace class: the characters for which `str.isspace()`
holds, which are exactly the ones `str.strip()` removes and the regex
class `\s` matches on `str` patterns — the ASCII whitespace controls
and space, the C1 separator controls U+001C–U+001F, NEL (U+0085),
NBSP (U+00A0), OGHAM SPACE MARK (U+1680), the Zs spaces
U+2000–U+200A, LINE/PARAGRAPH SEPARATOR (U+2028/U+2029), and
U+202F, U+205F, U+3000. -/
def isPyWs (c : Char) : Bool :=
  c = ' ' ∨ c = '\t' ∨ c = '\n' ∨ c = '\r' ∨ c = '\x0b' ∨ c = '\x0c' ∨
  c = '\x1c' ∨ c = '\x1d' ∨ c = '\x1e' ∨ c = '\x1f' ∨ c = '\x85' ∨ c = '\xa0' ∨
  c = '\u1680' ∨ ('\u2000' ≤ c ∧ c ≤ '\u200a') ∨ c = '\u2028' ∨ c = '\u2029' ∨
  c = '\u202f' ∨ c = '\u205f' ∨ c = '\u3000'

/-- Python `str.strip()` on a character list. -/
def pyStripL (l : List Char) : List Char :=
  ((l.dropWhile isPyWs).reverse.dropWhile isPyWs).reverse

/-- Python `str.strip()`. -/
def pyStrip (s : String) : String := String.mk (pyStripL s.data)

/-- Whether `l` begins with the pattern `pat`. -/
def startsWithL (pat l : List Char) : Bool := decide (l.take pat.length = pat)

/-- Number of positions of `l` at which the pattern `pat` occurs as a
substring (the tags counted by the claims never overlap themselves). -/
def countSubstr (pat : List Char) : List Char → Nat
  | [] => 0
  | c :: rest => (if startsWithL pat (c :: rest) then 1 else 0) + countSubstr pat rest

/-! ## `convert.py` — `_convert_inline`

Each `re.sub` pass of `_convert_inline` uses a pattern of one of three
shapes, embedded below by a left-to-right scanner with the exact
semantics of Python's `re.sub` for these patterns (at each position the
engine tries to match; the character classes `[^d]+` cannot backtrack
past their delimiter, so a failed attempt advances the scan by one
character, and scanning resumes immediately after a replacement).

The scanners consume at least one character per step, so they are
written by structural recursion on a fuel counter initialised to the
input length, which the scan can never exhaust (the out-of-fuel clause
returns the remaining input unchanged and is unreachable from the
wrappers). -/

/-- One `re.sub` pass for a pattern `d([^d]+)d` with replacement
`<tag>\1</tag>` (used for `` `code` ``, `*italic*` and `_italic_`). -/
def subSingleGo (d : Char) (tag : String) : Nat → List Char → List Char
  | 0, l => l
  | fuel + 1, l =>
    match l with
    | [] => []
    | c :: rest =>
      if c = d then
        let content := rest.takeWhile (· ≠ d)
        let rest' := rest.dropWhile (· ≠ d)
        if content ≠ [] ∧ rest' ≠ [] then
          ('<' :: tag.data ++ ['>']) ++ content ++ ('<' :: '/' :: tag.data ++ ['>']) ++
            subSingleGo d tag fuel rest'.tail
        else c :: subSingleGo d tag fuel rest
      else c :: subSingleGo d tag fuel rest

/-- Entry point of `subSingleGo` with sufficient fuel. -/
def subSingle (d : Char) (tag : String) (l : List Char) : List Char :=
  subSingleGo d tag l.length l

/-- One `re.sub` pass for a pattern `dd([^d]+)dd` with replacement
`<b>\1</b>` (used for `**bold**` and `__bold__`). -/
def subDoubleGo (d : Char) (tag : String) : Nat → List Char → List Char
  | 0, l => l
  | fuel + 1, l =>
    match l with
    | [] => []
    | c :: rest =>
      if c = d ∧ rest.head? = some d then
        let r2 := rest.tail
        let content := r2.takeWhile (· ≠ d)
        let rest' := r2.dropWhile (· ≠ d)
        if content ≠ [] ∧ rest'.take 2 = [d, d] then
          ('<' :: tag.data ++ ['>']) ++ content ++ ('<' :: '/' :: tag.data ++ ['>']) ++
            subDoubleGo d tag fuel (rest'.drop 2)
        else c :: subDoubleGo d tag fuel rest
      else c :: subDoubleGo d tag fuel rest

/-- Entry point of `subDoubleGo` with sufficient fuel. -/
def subDouble (d : Char) (tag : String) (l : List Char) : List Char :=
  subDoubleGo d tag l.length l

/-- The `re.sub` pass for the link pattern `\[([^\]]+)\]\(([^)]+)\)` with
replacement `<a href="\2">\1</a>`. -/
def subLinkGo : Nat → List Char → List Char
  | 0, l => l
  | fuel + 1, l =>
    match l with
    | [] => []
    | c :: rest =>
      if c = '[' then
        let label := rest.takeWhile (· ≠ ']')
        let rest' := rest.dropWhile (· ≠ ']')
        if label ≠ [] ∧ rest'.take 2 = [']', '('] then
          let r2 := rest'.drop 2
          let url := r2.takeWhile (· ≠ ')')
          let rest2 := r2.dropWhile (· ≠ ')')
          if url ≠ [] ∧ rest2 ≠ [] then
            "<a href=\"".data ++ url ++ "\">".data ++ label ++ "</a>".data ++
              subLinkGo fuel rest2.tail
          else c :: subLinkGo fuel rest
        else c :: subLinkGo fuel rest
      else c :: subLinkGo fuel rest

/-- Entry point of `subLinkGo` with sufficient fuel. -/
def subLink (l : List Char) : List Char :=
  subLinkGo l.length l

/-- `_convert_inline` from `convert.py`: code first, then bold (`**`,
`__`), then italic (`*`, `_`), then links, each pass a full `re.sub`
sweep over the result of the previous one. -/
def _convert_inline (text : String) : String :=
  String.mk (subLink (subSingle '_' "i" (subSingle '*' "i"
    (subDouble '_' "b" (subDouble '*' "b" (subSingle '`' "code" text.data))))))

/-! ## `convert.py` — `markdown_to_html` -/

/-- `stripped.startswith("- ") or stripped.startswith("* ")`. -/
def is_ul_item (stripped : List Char) : Bool :=
  startsWithL "- ".data stripped || startsWithL "* ".data stripped

/-- Length of the match of `^\d+\.\s` against `stripped` (`0` when there
is no match): one or more digits, a period, one whitespace character. -/
def olMarkLen (stripped : List Char) : Nat :=
  let ds := stripped.takeWhile Char.isDigit
  match stripped.drop ds.length with
  | '.' :: w :: _ => if ds ≠ [] ∧ isPyWs w then ds.length + 2 else 0
  | _ => 0

/-- `bool(re.match(r"^\d+\.\s", stripped))`. -/
def is_ol_item (stripped : List Char) : Bool := olMarkLen stripped ≠ 0

/-- The per-line loop of `markdown_to_html`, carrying the `in_ul` /
`in_ol` flags, producing the `html_lines` list; at the end of input the
still-open list containers are closed. -/
def processLines : List (List Char) → Bool → Bool → List String
  | [], inUl, inOl =>
    (if inUl then ["</ul>"] else []) ++ (if inOl then ["</ol>"] else [])
  | line :: rest, inUl, inOl =>
    let stripped := pyStripL line
    let isU := is_ul_item stripped
    let isO := is_ol_item stripped
    let pre := (if inUl && !isU then ["</ul>"] else []) ++
               (if inOl && !isO then ["</ol>"] else [])
    let inUl' := inUl && isU
    let inOl' := inOl && isO
    if stripped = [] then
      pre ++ "<br>" :: processLines rest inUl' inOl'
    else if startsWithL "### ".data stripped then
      pre ++ String.mk ("<h3>".data ++ (_convert_inline (String.mk (stripped.drop 4))).data
        ++ "</h3>".data) :: processLines rest inUl' inOl'
    else if startsWithL "## ".data stripped then
      pre ++ String.mk ("<h2>".data ++ (_convert_inline (String.mk (stripped.drop 3))).data
        ++ "</h2>".data) :: processLines rest inUl' inOl'
    else if startsWithL "# ".data stripped then
      pre ++ String.mk ("<h1>".data ++ (_convert_inline (String.mk (stripped.drop 2))).data
        ++ "</h1>".data) :: processLines rest inUl' inOl'
    else if isU then
      pre ++ (if inUl' then [] else ["<ul>"]) ++
        String.mk ("<li>".data ++ (_convert_inline (String.mk (stripped.drop 2))).data
          ++ "</li>".data) :: processLines rest true inOl'
    else if isO then
      pre ++ (if inOl' then [] else ["<ol>"]) ++
        String.mk ("<li>".data ++ (_convert_inline (String.mk (stripped.drop (olMarkLen stripped)))).data
          ++ "</li>".data) :: processLines rest inUl' true
    else
      pre ++ String.mk ("<div>".data ++ (_convert_inline (String.mk stripped)).data
        ++ "</div>".data) :: processLines rest inUl' inOl'

/-- The `html_lines` list built by `markdown_to_html` (empty for empty
input, which returns before the loop). -/
def markdownHtmlLines (text : String) : List String :=
  if text.data = [] then [] else processLines (splitOnChar '\n' text.data) false false

/-- `markdown_to_html` from `convert.py`: split on newlines, convert each
line, join the emitted HTML lines with newlines. -/
def markdown_to_html (text : String) : String :=
  if text.data = [] then "" else pyJoin "\n" (markdownHtmlLines text)

/-! ## `converters.py` — `html_to_markdown`

`html_to_markdown` walks the element tree BeautifulSoup builds from the
HTML string. The tree is embedded as `HNode`; `tokenizeHtml` /
`buildNodes` model BeautifulSoup's `html.parser` on the restricted
dialect this repository exchanges with Apple Notes (lower-case tags,
attributes only `href="..."`, `<br>` the only void element, text runs
between tags kept verbatim as string nodes). -/

/-- A node of the parsed HTML tree: a text node, or an element with its
name, its `href` attribute (`""` when absent) and its children. -/
inductive HNode where
  | text : String → HNode
  | elem : String → String → List HNode → HNode
deriving Repr

/-- A token of the HTML scanner: an opening tag with its name and
`href`, a closing tag, or a run of text between tags. -/
inductive HTok where
  | tagOpen : String → String → HTok
  | tagClose : String → HTok
  | text : String → HTok
deriving Repr, DecidableEq

/-- The value of the `href` attribute inside a tag's attribute text,
`""` when absent. -/
def extractHref : List Char → String
  | [] => ""
  | c :: rest =>
    if startsWithL "href=\"".data (c :: rest) then
      String.mk (((c :: rest).drop 6).takeWhile (· ≠ '"'))
    else extractHref rest

/-- Interpret the text between `<` and `>` as a tag token. -/
def parseTagTok (inner : List Char) : HTok :=
  match inner with
  | '/' :: name => .tagClose (String.mk (name.takeWhile (· ≠ ' ')))
  | _ => .tagOpen (String.mk (inner.takeWhile (· ≠ ' '))) (extractHref inner)

/-- Scan an HTML string into tag and text tokens, one character at a
time: `buf` accumulates the current text run or the current tag's
inner text, `inTag` tells which; a text run is flushed (when non-empty)
at `<` and at end of input, a tag is flushed at `>`. -/
def tokenizeAux : List Char → List Char → Bool → List HTok
  | [], buf, inTag =>
    if inTag then [] else if buf = [] then [] else [.text (String.mk buf)]
  | c :: rest, buf, true =>
    if c = '>' then parseTagTok buf :: tokenizeAux rest [] false
    else tokenizeAux rest (buf ++ [c]) true
  | c :: rest, buf, false =>
    if c = '<' then
      (if buf = [] then [] else [HTok.text (String.mk buf)]) ++ tokenizeAux rest [] true
    else tokenizeAux rest (buf ++ [c]) false

/-- Scan an HTML string into tag and text tokens. -/
def tokenizeHtml (l : List Char) : List HTok := tokenizeAux l [] false

/-- An element still open during tree building. -/
structure PFrame where
  name : String
  href : String
  children : List HNode
deriving Repr

/-- Attach a finished node to the innermost open element, or to the
top-level node list when no element is open. -/
def attachNode (root : List HNode) (stack : List PFrame) (n : HNode) :
    List HNode × List PFrame :=
  match stack with
  | [] => (root ++ [n], [])
  | f :: fs => (root, { f with children := f.children ++ [n] } :: fs)

/-- One token of tree building over the state (top-level nodes, stack
of open elements): text attaches to the innermost open element, `<br>`
is void, an opening tag pushes a frame, a closing tag closes the
innermost open element (a stray closing tag is ignored). -/
def buildStep (st : List HNode × List PFrame) (t : HTok) : List HNode × List PFrame :=
  match t with
  | .text s => attachNode st.1 st.2 (.text s)
  | .tagOpen n h =>
    if n = "br" then attachNode st.1 st.2 (.elem "br" "" [])
    else (st.1, ⟨n, h, []⟩ :: st.2)
  | .tagClose _ =>
    match st.2 with
    | [] => st
    | f :: fs => attachNode st.1 fs (.elem f.name f.href f.children)

/-- Close the elements still open at end of input, innermost first (as
`html.parser` does); structural recursion on a fuel counter initialised
to the stack depth, which the unwinding cannot exhaust. -/
def closeAllGo : Nat → List PFrame → List HNode → List HNode
  | 0, _, root => root
  | fuel + 1, stack, root =>
    match stack with
    | [] => root
    | f :: fs =>
      let (r, s) := attachNode root fs (.elem f.name f.href f.children)
      closeAllGo fuel s r

/-- Build the node tree from the token stream. -/
def buildNodes (ts : List HTok) (root : List HNode) (stack : List PFrame) : List HNode :=
  let st := ts.foldl buildStep (root, stack)
  closeAllGo st.2.length st.2 st.1

/-- The node list BeautifulSoup's parse of `html` presents as
`soup.children`. -/
def parseHtml (html : String) : List HNode :=
  buildNodes (tokenizeHtml html.data) [] []

mutual

/-- `get_text()`: the concatenated text of all descendants. -/
def getText : HNode → String
  | .text s => s
  | .elem _ _ cs => getTextList cs

/-- `get_text()` over a list of children. -/
def getTextList : List HNode → String
  | [] => ""
  | c :: cs => getText c ++ getTextList cs

end

mutual

/-- `_convert_element` from `converters.py`: a text node is returned
verbatim, an element's children are converted and concatenated. -/
def _convert_element : HNode → String
  | .text s => s
  | .elem _ _ cs => convertChildren cs

/-- The child loop of `_convert_element`. -/
def convertChildren : List HNode → String
  | [] => ""
  | c :: cs => convertChild c ++ convertChildren cs

/-- One child inside `_convert_element`: known inline elements become
Markdown, `br` becomes a newline, anything else recurses. -/
def convertChild : HNode → String
  | .text s => s
  | .elem n href cs =>
    if n = "b" then "**" ++ getTextList cs ++ "**"
    else if n = "i" then "*" ++ getTextList cs ++ "*"
    else if n = "u" then getTextList cs
    else if n = "strike" then "~~" ++ getTextList cs ++ "~~"
    else if n = "a" then "[" ++ getTextList cs ++ "](" ++ href ++ ")"
    else if n = "br" then "\n"
    else convertChildren cs

end

/-- `_convert_list` from `converters.py`: direct `li` children only,
ordered items renumbered from 1, unordered items prefixed `- `, each
item's text stripped. -/
def _convert_list (isOrdered : Bool) (cs : List HNode) : String :=
  let lis := cs.filterMap fun n =>
    match n with
    | .elem "li" _ lcs => some lcs
    | _ => none
  pyJoin "\n" (lis.enum.map fun p =>
    (if isOrdered then toString (p.1 + 1) ++ ". " else "- ") ++ pyStrip (getTextList p.2))

/-- The per-child branch of `html_to_markdown`'s top-level loop. -/
def topConvert (n : HNode) : String :=
  match n with
  | .text s => s
  | .elem name _ cs =>
    if name = "div" then _convert_element n
    else if name = "ul" ∨ name = "ol" then _convert_list (name = "ol") cs
    else getText n

/-- `html_to_markdown` from `converters.py`: convert each top-level
child of the parsed soup and join the results with blank lines. -/
def html_to_markdown (html_content : String) : String :=
  pyJoin "\n\n" ((parseHtml html_content).map topConvert)

/-! ## `db.py` — `extract_text_from_note_data`

The blob is a byte list; `gzip.decompress` is an external library call
and is modelled by an oracle argument: `none` when it raises (invalid
gzip data), `some bytes` when it succeeds. -/

/-- The byte classes the scanner accumulates: printable ASCII,
tab/LF/CR, or bytes `≥ 192`. -/
def keepByte (b : Nat) : Bool :=
  (32 ≤ b ∧ b ≤ 126) ∨ b = 9 ∨ b = 10 ∨ b = 13 ∨ 192 ≤ b

/-- `run.decode("utf-8", errors="ignore")` for a run of kept bytes.
Kept runs never contain the UTF-8 continuation range `0x80–0xBF`
(those bytes terminate a run), so every byte `≥ 0xC0` in a run is an
invalid sequence that `errors="ignore"` drops, and decoding reduces to
keeping the ASCII bytes. -/
def decodeKeptRun (run : List Nat) : String :=
  String.mk ((run.filter (· ≤ 127)).map Char.ofNat)

/-- The byte scan of `extract_text_from_note_data`: accumulate runs of
kept bytes, flush on any other byte, keep a flushed run as a fragment
when it has at least 3 bytes (the final run included). -/
def extractParts (bytes : List Nat) (current : List Nat) : List String :=
  match bytes with
  | [] => if 3 ≤ current.length then [decodeKeptRun current] else []
  | b :: rest =>
    if keepByte b then extractParts rest (current ++ [b])
    else if 3 ≤ current.length then decodeKeptRun current :: extractParts rest []
    else extractParts rest []

/-- The font-name artifacts dropped in display mode. -/
def isFontName (stripped : String) : Bool :=
  stripped = "Helvetica" ∨ stripped = "Helvetica Neue" ∨ stripped = "SF Pro"

/-- Hexadecimal digit as matched by `[0-9a-fA-F]`. -/
def isHexChar (c : Char) : Bool :=
  c.isDigit ∨ ('a' ≤ c ∧ c ≤ 'f') ∨ ('A' ≤ c ∧ c ≤ 'F')

/-- Helper for `isUuidLine`: `l` is `n` hex digits followed by `post`. -/
def hexGroup (n : Nat) (l post : List Char) : Bool :=
  (l.take n).length = n ∧ (l.take n).all isHexChar ∧ l.drop n = post

/-- `re.match` of the anchored UUID pattern
`^[\$]?hex{8}-hex{4}-hex{4}-hex{4}-hex{12}$`. -/
def isUuidLine (stripped : String) : Bool :=
  let d := match stripped.data with
           | '$' :: r => r
           | r => r
  d.length = 36 ∧
  hexGroup 8 d (d.drop 8) ∧ (d.drop 8).take 1 = ['-'] ∧
  hexGroup 4 (d.drop 9) (d.drop 13) ∧ (d.drop 13).take 1 = ['-'] ∧
  hexGroup 4 (d.drop 14) (d.drop 18) ∧ (d.drop 18).take 1 = ['-'] ∧
  hexGroup 4 (d.drop 19) (d.drop 23) ∧ (d.drop 23).take 1 = ['-'] ∧
  hexGroup 12 (d.drop 24) []

/-- The metadata skip conditions of the display filter that leave the
junk counter untouched: blank lines, font names, UUID attachment
references, UTI type identifiers. -/
def lineSkippedMeta (stripped : String) : Bool :=
  stripped.data = [] ∨ isFontName stripped ∨ isUuidLine stripped ∨
  startsWithL "public.".data stripped.data ∨ startsWithL "com.apple.".data stripped.data

/-- The binary-looking-noise test: at most 10 characters and at most
half of them alphabetic (`alpha_chars <= len(stripped) / 2` on integers
against a float half). -/
def lineIsNoise (stripped : String) : Bool :=
  stripped.data.length ≤ 10 ∧
  2 * (stripped.data.countP Char.isAlpha) ≤ stripped.data.length

/-- The display-mode line filter: metadata lines are skipped, noise
lines increment the consecutive-junk counter and once it exceeds 3 the
scan stops, any surviving line is kept and resets the counter. -/
def filterLines : List String → Nat → List String
  | [], _ => []
  | line :: rest, junk =>
    let stripped := pyStrip line
    if lineSkippedMeta stripped then filterLines rest junk
    else if lineIsNoise stripped then
      if junk + 1 > 3 then [] else filterLines rest (junk + 1)
    else line :: filterLines rest 0

/-- `text.replace("￼", "[Attachment]")`. -/
def replaceAttachment (s : String) : String :=
  String.mk (s.data.flatMap fun c => if c = '￼' then "[Attachment]".data else [c])

/-- The display-mode post-processing of the fragment list: split the
fragments into lines, filter, rejoin, rewrite U+FFFC, strip. -/
def displayFilter (text_parts : List String) : String :=
  let all_lines := text_parts.flatMap fun p => (splitOnChar '\n' p.data).map String.mk
  pyStrip (replaceAttachment (pyJoin "\n" (filterLines all_lines 0)))

/-- `extract_text_from_note_data` from `db.py`. `gzipResult` stands for
the outcome of `gzip.decompress(data)`: `none` when it raises (the
`except` path returns `""`), `some d` when it yields bytes `d`. The
function is total: it returns a string for every input. -/
def extract_text_from_note_data (data : List Nat) (gzipResult : Option (List Nat))
    (for_display : Bool) : String :=
  if data = [] then ""
  else
    match gzipResult with
    | none => ""
    | some decompressed =>
      let text_parts := extractParts decompressed []
      if for_display then displayFilter text_parts
      else pyJoin " " text_parts

/-! ## `cli.py` — `format_date`

`datetime(2001, 1, 1) + timedelta(seconds=timestamp)` followed by
`strftime("%Y-%m-%d %H:%M")` is embedded with the standard proleptic
Gregorian civil-from-days conversion (timestamps in the accepted range
`0 ≤ ts ≤ 2_000_000_000` stay far below `datetime`'s year 9999 limit,
so the `OverflowError` branch is unreachable). -/

/-- Civil date `(year, month, day)` from a count of days since
1970-01-01 (proleptic Gregorian, non-negative days). -/
def civilFromDays (z : Nat) : Nat × Nat × Nat :=
  let z' := z + 719468
  let era := z' / 146097
  let doe := z' % 146097
  let yoe := (doe - doe / 1460 + doe / 36524 - doe / 146096) / 365
  let y := yoe + era * 400
  let doy := doe - (365 * yoe + yoe / 4 - yoe / 100)
  let mp := (5 * doy + 2) / 153
  let d := doy - (153 * mp + 2) / 5 + 1
  let m := if mp < 10 then mp + 3 else mp - 9
  (if m ≤ 2 then y + 1 else y, m, d)

/-- Zero-padded two-digit decimal rendering. -/
def pad2 (n : Nat) : String := if n < 10 then "0" ++ toString n else toString n

/-- `format_date` from `cli.py`: `None` and out-of-range timestamps
render as "Unknown", otherwise the Core-Data timestamp (seconds since
2001-01-01) is rendered as `%Y-%m-%d %H:%M`. -/
def format_date (timestamp : Option Int) : String :=
  match timestamp with
  | none => "Unknown"
  | some ts =>
    if ts < 0 ∨ ts > 2000000000 then "Unknown"
    else
      let s := ts.toNat
      let days := s / 86400
      let secs := s % 86400
      let ymd := civilFromDays (days + 11323)
      toString ymd.1 ++ "-" ++ pad2 ymd.2.1 ++ "-" ++ pad2 ymd.2.2 ++ " " ++
        pad2 (secs / 3600) ++ ":" ++ pad2 (secs % 3600 / 60)

/-! ## `applescript.py` — `escape_for_applescript`

`text.replace("\\", "\\\\").replace('"', '\\"')`, each `replace` a
per-character substitution. `appleScriptUnescape` is the standard
AppleScript unescaping (a backslash followed by a backslash or a double
quote denotes that character), used to state that the escaping is
lossless. -/

/-- Python `text.replace(c, r)` for a one-character pattern. -/
def replaceChar (c : Char) (r : List Char) (l : List Char) : List Char :=
  l.flatMap fun x => if x = c then r else [x]

/-- `escape_for_applescript` from `applescript.py`: double the
backslashes first, then escape the double quotes. -/
def escape_for_applescript (text : String) : String :=
  String.mk (replaceChar '"' ['\\', '"'] (replaceChar '\\' ['\\', '\\'] text.data))

/-- AppleScript unescaping, scanned left to right: `\\` denotes a
backslash, `\"` a double quote (structural recursion on a fuel counter
initialised to the input length, which the scan cannot exhaust). -/
def appleScriptUnescapeGo : Nat → List Char → List Char
  | 0, l => l
  | fuel + 1, l =>
    match l with
    | [] => []
    | a :: rest =>
      if a = '\\' then
        match rest with
        | [] => [a]
        | b :: rest' =>
          if b = '\\' ∨ b = '"' then b :: appleScriptUnescapeGo fuel rest'
          else a :: appleScriptUnescapeGo fuel (b :: rest')
      else a :: appleScriptUnescapeGo fuel rest

/-- AppleScript unescaping: `\\` denotes a backslash, `\"` a double
quote. -/
def appleScriptUnescape (l : List Char) : List Char :=
  appleScriptUnescapeGo l.length l

/-! ## `applescript.py` / `cli.py` — the `create` path

`create_note(title, body, folder="Notes")` accepts exactly the keyword
arguments `title`, `body` and `folder` and has no `**kwargs`;
`cli.create` invokes it as
`create_note(title=..., body=..., folder=..., account=account)`.
Python's call binding accepts a keyword call exactly when every keyword
names a declared parameter. -/

/-- The parameters `applescript.create_note` declares. -/
def create_note_params : List String := ["title", "body", "folder"]

/-- The keyword arguments `cli.create` passes to
`applescript.create_note` (always including `account`, whether or not
the user supplied one). -/
def cli_create_call_keywords : List String := ["title", "body", "folder", "account"]

/-- Python keyword-argument binding: a call without positional excess
binds exactly when each keyword names a declared parameter (no
`**kwargs` sink). `false` means the call raises `TypeError`. -/
def pythonKeywordCallBinds (params : List String) (keywords : List String) : Bool :=
  keywords.all fun k => params.contains k

/-! ## `cli.py` — the `edit` flow

The `edit` command orchestrates the Automation Client. The client's
operations (`get_note_id_by_title`, `get_note_modification_date`,
`get_note_body_by_id`, `update_note_by_id`) are not defined in the
repository snapshot; they are modelled from the spec's Automation
Client contract as oracles recorded in an action trace:
`modDateAtRead` is what `getModificationTimestamp` returns when first
called, `modDateAtWrite` what it returns when re-checked,
`currentHtml` what `getBody` returns, and `userConfirms` the answer to
the conflict prompt. The decode step uses `html_to_markdown` exactly as
`cli.edit` does. -/

/-- The externally observable steps of the `edit` command, in order. -/
inductive EditAction where
  | getNoteId
  | getModDate
  | getBody
  | promptConfirm
  | updateBody
deriving Repr, DecidableEq

/-- The outcome of the `edit` command. -/
inductive EditOutcome where
  | noChanges
  | cancelled
  | updated
deriving Repr, DecidableEq

/-- Modelled from the spec: the Automation Client's responses during one
`edit` invocation. -/
structure EditEnv where
  modDateAtRead : Int
  modDateAtWrite : Int
  currentHtml : String
  userConfirms : Bool

/-- The `edit` flow of `cli.py` from the point where the note was found,
as the trace of Automation Client calls it performs and its outcome:
capture the modification date, read the body, decode it, compare with
the new content, re-check the modification date, and on a conflict ask
before overwriting. -/
def editFlow (env : EditEnv) (newMarkdown : String) : List EditAction × EditOutcome :=
  let currentMarkdown := html_to_markdown env.currentHtml
  let pre := [EditAction.getNoteId, EditAction.getModDate, EditAction.getBody]
  if pyStrip newMarkdown = pyStrip currentMarkdown then (pre, .noChanges)
  else
    let recheck := pre ++ [EditAction.getModDate]
    if env.modDateAtWrite ≠ env.modDateAtRead then
      if env.userConfirms then
        (recheck ++ [EditAction.promptConfirm, EditAction.updateBody], .updated)
      else (recheck ++ [EditAction.promptConfirm], .cancelled)
    else (recheck ++ [EditAction.updateBody], .updated)

/-! ## Definitions used only to state the claims -/

/-- An emitted HTML line that opens a list container. -/
def isOpenTagLine (s : String) : Bool := s == "<ul>" || s == "<ol>"

/-- An emitted HTML line that closes a list container. -/
def isCloseTagLine (s : String) : Bool := s == "</ul>" || s == "</ol>"

/-- Number of list-opening tag substrings (`<ul>`, `<ol>`) in `s`. -/
def openTagSubstrCount (s : String) : Nat :=
  countSubstr "<ul>".data s.data + countSubstr "<ol>".data s.data

/-- Number of list-closing tag substrings (`</ul>`, `</ol>`) in `s`. -/
def closeTagSubstrCount (s : String) : Nat :=
  countSubstr "</ul>".data s.data + countSubstr "</ol>".data s.data

/-- Characters with no role in either codec direction: not a Markdown
delimiter (backtick, asterisk, underscore, opening bracket), not an HTML
tag opener (`<`), not an entity opener (`&`), and not whitespace. -/
def plainChar (c : Char) : Bool :=
  ¬ (c = '`' ∨ c = '*' ∨ c = '_' ∨ c = '[' ∨ c = '<' ∨ c = '&' ∨ isPyWs c)

/-- The per-character effect of `escape_for_applescript`: the two
`replace` passes compose to this map applied to every character. -/
def escChar (c : Char) : List Char :=
  if c = '\\' then ['\\', '\\'] else if c = '"' then ['\\', '"'] else [c]

/-- The round-trip scenario markup of the spec. -/
def c7_markup : String := "# Title\n\n- item1\n- item2\n\nSome **bold** text."

/-- Its encoding. -/
def c7_html : String := markdown_to_html c7_markup

/-- The decoding of its encoding. -/
def c7_decoded : String := html_to_markdown c7_html

mutual

/-- The visible structure contributed by one node: its element name and
depth followed by the structure of its children (text nodes contribute
nothing). -/
def elemSeqNode (depth : Nat) : HNode → List (String × Nat)
  | .text _ => []
  | .elem n _ cs => (n, depth) :: elemSeqList (depth + 1) cs

/-- The visible structure of a node list: the preorder sequence of
element names with their nesting depths. -/
def elemSeqList (depth : Nat) : List HNode → List (String × Nat)
  | [] => []
  | c :: rest => elemSeqNode depth c ++ elemSeqList depth rest

end

/-- The visible structure of an HTML document: the element order and
nesting depth the claim compares. -/
def elemStructure (html : String) : List (String × Nat) :=
  elemSeqList 0 (parseHtml html)

/-! ## Claim C1 -/

/-- Claim C1: for every byte string passed as the blob argument —
including byte strings on which `gzip.decompress` raises (invalid gzip
streams) and the empty blob — `extract_text_from_note_data` returns
normally (it is a total function) and returns the empty string on those
failure paths, in both Search mode and Display mode. -/
theorem C1_extract_total_and_empty_on_failure :
    ∀ (data : List Nat) (gz : Option (List Nat)) (mode : Bool),
      (gz = none → extract_text_from_note_data data gz mode = "") ∧
      (data = [] → extract_text_from_note_data data gz mode = "") := by
  intro data gz mode
  constructor
  · intro h
    subst h
    unfold extract_text_from_note_data
    split <;> rfl
  · intro h
    subst h
    rfl

/-- Witness for C1 at concrete inputs: a non-empty blob whose
decompression fails, and an empty blob with a successful decompression
oracle. -/
theorem C1_witness :
    extract_text_from_note_data [0] none true = "" ∧
    extract_text_from_note_data [] (some [65, 66, 67]) false = "" :=
  ⟨(C1_extract_total_and_empty_on_failure [0] none true).1 rfl,
   (C1_extract_total_and_empty_on_failure [] (some [65, 66, 67]) false).2 rfl⟩

/-! ## Claim C3 -/

/-- Counterexample to claim C3: on the input `**bold *and italic***`
the inline conversion produces `*<i>bold </i>and italic***`, which
contains no bold element at all — the bold wrapper IS lost, so the
claimed bold-around-italic output does not occur. -/
theorem C3_counterexample :
    _convert_inline "**bold *and italic***" = "*<i>bold </i>and italic***" ∧
    countSubstr "<b>".data (_convert_inline "**bold *and italic***").data = 0 := by
  constructor
  · rfl
  · rfl

/-- Claim C3 as amended: on the input `**bold *and italic***` the fixed
pass order (code, bold, italic, link) yields `*<i>bold </i>and
italic***`: the bold pattern `\*\*([^*]+)\*\*` cannot match across the
inner asterisks, so no bold element is produced and the italic pass
wraps `bold ` instead. -/
theorem C3_amended :
    _convert_inline "**bold *and italic***" = "*<i>bold </i>and italic***" := by
  rfl

/-! ## Claim C5 -/

/-- Claim C5: in Display mode a surviving line resets the
consecutive-junk counter to zero; a noise line (at most 10 characters
after stripping, at most half of them alphabetic) increments it, and
once the counter would exceed 3 the scan stops; on the scenario
fragments `["ok","##","!!","$$","&&","@@","moretext"]` the output
truncates at the fourth consecutive noise line, dropping `moretext`,
and only `ok` survives. -/
theorem C5_junk_truncation :
    (∀ (line : String) (rest : List String) (junk : Nat),
        lineSkippedMeta (pyStrip line) = false → lineIsNoise (pyStrip line) = false →
        filterLines (line :: rest) junk = line :: filterLines rest 0) ∧
    (∀ (line : String) (rest : List String) (junk : Nat),
        lineSkippedMeta (pyStrip line) = false → lineIsNoise (pyStrip line) = true →
        3 ≤ junk → filterLines (line :: rest) junk = []) ∧
    displayFilter ["ok", "##", "!!", "$$", "&&", "@@", "moretext"] = "ok" := by
  refine ⟨?_, ?_, by decide⟩
  · intro line rest junk h1 h2
    simp [filterLines, h1, h2]
  · intro line rest junk h1 h2 h3
    have h4 : junk + 1 > 3 := by omega
    simp [filterLines, h1, h2, h4]

/-- Witness for C5 at concrete inputs: a legitimate line survives and
resets the counter even when it is already 5; a fourth consecutive
noise line stops the scan and drops everything after it. -/
theorem C5_witness :
    filterLines ["moretext", "##"] 5 = "moretext" :: filterLines ["##"] 0 ∧
    filterLines ["%%", "moretext"] 3 = [] :=
  ⟨C5_junk_truncation.1 "moretext" ["##"] 5 (by decide) (by decide),
   C5_junk_truncation.2.1 "%%" ["moretext"] 3 (by decide) (by decide) (by decide)⟩

/-! ## Claim C6 -/

/-- Claim C6: a negative timestamp or one above the sane upper bound
2_000_000_000 (≈63 years of seconds) renders as the unknown marker (the
code spells it `"Unknown"`) instead of crashing or showing a bogus
date, and the timestamp 0 renders as the fixed reference date
2001-01-01. -/
theorem C6_format_date_bounds :
    ∀ ts : Int,
      (ts < 0 ∨ ts > 2000000000 → format_date (some ts) = "Unknown") ∧
      format_date (some 0) = "2001-01-01 00:00" := by
  intro ts
  refine ⟨fun h => ?_, by decide⟩
  simp [format_date, h]

/-- Witness for C6 at the spec's concrete inputs `-5`, `3_000_000_000`
and `0`. -/
theorem C6_witness :
    format_date (some (-5)) = "Unknown" ∧
    format_date (some 3000000000) = "Unknown" ∧
    format_date (some 0) = "2001-01-01 00:00" :=
  ⟨(C6_format_date_bounds (-5)).1 (Or.inl (by decide)),
   (C6_format_date_bounds 3000000000).1 (Or.inr (by decide)),
   (C6_format_date_bounds 0).2⟩

/-! ## Claim C8 -/

/-- Claim C8 records a code bug: `cli.create` always passes the keyword
argument `account` to `applescript.create_note`, but `create_note`
declares only `title`, `body` and `folder`, so under Python's
keyword-binding rules the call never binds (it raises `TypeError` for
every account value, `None` included) and no identifier is returned. -/
theorem C8_create_call_never_binds :
    pythonKeywordCallBinds create_note_params cli_create_call_keywords = false := by
  decide

/-! ## Claim C7 -/

/-- Claim C7: the scenario markup encodes to HTML with exactly one
heading, one unordered list with exactly two items, and one block
containing a bold fragment; decoding that HTML reproduces the heading
text `Title`, the two list items in order, and a paragraph containing
the literal `**bold**`. -/
theorem C7_round_trip :
    c7_html = "<h1>Title</h1>\n<br>\n<ul>\n<li>item1</li>\n<li>item2</li>\n</ul>\n<br>\n<div>Some <b>bold</b> text.</div>" ∧
    countSubstr "<h1>".data c7_html.data = 1 ∧
    countSubstr "<h2>".data c7_html.data = 0 ∧
    countSubstr "<h3>".data c7_html.data = 0 ∧
    countSubstr "<ul>".data c7_html.data = 1 ∧
    countSubstr "<ol>".data c7_html.data = 0 ∧
    countSubstr "<li>".data c7_html.data = 2 ∧
    countSubstr "<div>".data c7_html.data = 1 ∧
    countSubstr "<b>".data c7_html.data = 1 ∧
    (splitOnChar '\n' c7_decoded.data).filter (· ≠ []) =
      ["Title".data, "- item1".data, "- item2".data, "Some **bold** text.".data] ∧
    countSubstr "**bold**".data c7_decoded.data = 1 := by
  decide

/-! ## Claim C9 -/

/-- Claim C9: in the `edit` flow the modification timestamp is captured
before the body is read (the first `getModDate` precedes `getBody` in
the trace), and whenever the body is overwritten the timestamp was
checked twice and, if it changed in between, the user explicitly
confirmed the conflict. -/
theorem C9_edit_conflict_protocol :
    ∀ (env : EditEnv) (newMarkdown : String),
      ((editFlow env newMarkdown).1.indexOf EditAction.getModDate <
        (editFlow env newMarkdown).1.indexOf EditAction.getBody) ∧
      (EditAction.updateBody ∈ (editFlow env newMarkdown).1 →
        (editFlow env newMarkdown).1.count EditAction.getModDate = 2 ∧
        (env.modDateAtWrite ≠ env.modDateAtRead → env.userConfirms = true)) := by
  intro env nm
  by_cases h1 : pyStrip nm = pyStrip (html_to_markdown env.currentHtml)
  · simp only [editFlow, if_pos h1]
    exact ⟨by decide, fun hm => absurd hm (by decide)⟩
  · by_cases h2 : env.modDateAtWrite ≠ env.modDateAtRead
    · cases h3 : env.userConfirms
      · simp only [editFlow, if_neg h1, if_pos h2, h3, Bool.false_eq_true, if_neg,
          if_false]
        exact ⟨by decide, fun hm => absurd hm (by decide)⟩
      · simp only [editFlow, if_neg h1, if_pos h2, h3, if_true]
        exact ⟨by decide, fun _ => ⟨by decide, fun _ => trivial⟩⟩
    · simp only [editFlow, if_neg h1, if_neg h2]
      exact ⟨by decide, fun _ => ⟨by decide, fun hd => absurd hd h2⟩⟩

/-- Witness for C9 at a concrete environment: an external modification
with a confirming user leads to an overwrite with the confirmation in
the trace. -/
theorem C9_witness :
    (editFlow ⟨1, 2, "<div>old</div>", true⟩ "new").1.indexOf EditAction.getModDate <
      (editFlow ⟨1, 2, "<div>old</div>", true⟩ "new").1.indexOf EditAction.getBody ∧
    (editFlow ⟨1, 2, "<div>old</div>", true⟩ "new").1.count EditAction.getModDate = 2 ∧
    ((2 : Int) ≠ 1 → true = true) :=
  ⟨(C9_edit_conflict_protocol ⟨1, 2, "<div>old</div>", true⟩ "new").1,
   (C9_edit_conflict_protocol ⟨1, 2, "<div>old</div>", true⟩ "new").2 (by decide)⟩

/-! ## Claim C10 -/

/-- The two `replace` passes of `escape_for_applescript` compose to the
per-character map `escChar`. -/
theorem escape_eq_flatMap (l : List Char) :
    replaceChar '"' ['\\', '"'] (replaceChar '\\' ['\\', '\\'] l) = l.flatMap escChar := by
  induction l with
  | nil => rfl
  | cons c rest ih =>
    by_cases h1 : c = '\\'
    · subst h1
      simpa [replaceChar, escChar] using ih
    · by_cases h2 : c = '"'
      · subst h2
        simpa [replaceChar, escChar] using ih
      · simpa [replaceChar, escChar, h1, h2] using ih

/-- AppleScript unescaping inverts the escaping, for any sufficient
fuel. -/
theorem unescapeGo_escape (l : List Char) :
    ∀ fuel, (l.flatMap escChar).length ≤ fuel →
      appleScriptUnescapeGo fuel (l.flatMap escChar) = l := by
  induction l with
  | nil =>
    intro fuel _
    cases fuel <;> rfl
  | cons c rest ih =>
    intro fuel hf
    by_cases h1 : c = '\\'
    · subst h1
      cases fuel with
      | zero => simp [escChar] at hf
      | succ f =>
        have hlen : (rest.flatMap escChar).length ≤ f := by
          rw [List.length_flatMap]
          simp [escChar] at hf
          omega
        simp [escChar, appleScriptUnescapeGo, ih f hlen]
    · by_cases h2 : c = '"'
      · subst h2
        cases fuel with
        | zero => simp [escChar] at hf
        | succ f =>
          have hlen : (rest.flatMap escChar).length ≤ f := by
            rw [List.length_flatMap]
            simp [escChar] at hf
            omega
          simp [escChar, appleScriptUnescapeGo, ih f hlen]
      · cases fuel with
        | zero => simp [escChar, h1, h2] at hf
        | succ f =>
          have hlen : (rest.flatMap escChar).length ≤ f := by
            rw [List.length_flatMap]
            simp [escChar, h1, h2] at hf
            omega
          simp [escChar, h1, h2, appleScriptUnescapeGo, ih f hlen]

/-- Claim C10: `escape_for_applescript` is lossless — AppleScript's
unescaping recovers the original string from the escaped output for
every input (backslashes are doubled before quotes are escaped), and
consequently the escaping is injective. -/
theorem C10_escape_lossless :
    (∀ s : String, String.mk (appleScriptUnescape (escape_for_applescript s).data) = s) ∧
    (∀ s t : String, escape_for_applescript s = escape_for_applescript t → s = t) := by
  have key : ∀ s : String, String.mk (appleScriptUnescape (escape_for_applescript s).data) = s := by
    intro s
    have hd : (escape_for_applescript s).data = s.data.flatMap escChar := escape_eq_flatMap s.data
    rw [hd]
    unfold appleScriptUnescape
    rw [unescapeGo_escape s.data _ (le_refl _)]
  refine ⟨key, fun s t h => ?_⟩
  have h2 := congrArg (fun x => String.mk (appleScriptUnescape x.data)) h
  simp only [key s, key t] at h2
  exact h2

/-- Witness for C10 at concrete inputs: unescaping recovers a string
containing both special characters, and equal escapings of equal
strings give back equality. -/
theorem C10_witness :
    String.mk (appleScriptUnescape (escape_for_applescript "a\"b\\c").data) = "a\"b\\c" ∧
    "x\\y" = "x\\y" :=
  ⟨C10_escape_lossless.1 "a\"b\\c", C10_escape_lossless.2 "x\\y" "x\\y" rfl⟩

/-! ## Claim C4

Helper lemmas: an emitted content line (`<li>…`, `<div>…`, `<h1>…`,
`<h2>…`, `<h3>…`) is never one of the four list-container tag lines,
whatever its inline-converted content is. -/

theorem contentLine_not_tag (x : Char) (r : List Char) (hx1 : x ≠ 'u') (hx2 : x ≠ 'o')
    (hx3 : x ≠ '/') :
    isOpenTagLine (String.mk ('<' :: x :: r)) = false ∧
    isCloseTagLine (String.mk ('<' :: x :: r)) = false := by
  constructor
  · simp only [isOpenTagLine]
    rw [show ("<ul>" : String) = String.mk ['<', 'u', 'l', '>'] from rfl,
        show ("<ol>" : String) = String.mk ['<', 'o', 'l', '>'] from rfl]
    simp [String.ext_iff, hx1, hx2]
  · simp only [isCloseTagLine]
    rw [show ("</ul>" : String) = String.mk ['<', '/', 'u', 'l', '>'] from rfl,
        show ("</ol>" : String) = String.mk ['<', '/', 'o', 'l', '>'] from rfl]
    simp [String.ext_iff, hx3]


theorem isOpenTagLine_h (r : List Char) :
    isOpenTagLine (String.mk ('<' :: 'h' :: r)) = false :=
  (contentLine_not_tag 'h' r (by decide) (by decide) (by decide)).1

theorem isCloseTagLine_h (r : List Char) :
    isCloseTagLine (String.mk ('<' :: 'h' :: r)) = false :=
  (contentLine_not_tag 'h' r (by decide) (by decide) (by decide)).2

theorem isOpenTagLine_l (r : List Char) :
    isOpenTagLine (String.mk ('<' :: 'l' :: r)) = false :=
  (contentLine_not_tag 'l' r (by decide) (by decide) (by decide)).1

theorem isCloseTagLine_l (r : List Char) :
    isCloseTagLine (String.mk ('<' :: 'l' :: r)) = false :=
  (contentLine_not_tag 'l' r (by decide) (by decide) (by decide)).2

theorem isOpenTagLine_d (r : List Char) :
    isOpenTagLine (String.mk ('<' :: 'd' :: r)) = false :=
  (contentLine_not_tag 'd' r (by decide) (by decide) (by decide)).1

theorem isCloseTagLine_d (r : List Char) :
    isCloseTagLine (String.mk ('<' :: 'd' :: r)) = false :=
  (contentLine_not_tag 'd' r (by decide) (by decide) (by decide)).2

theorem tag_const_facts :
    isOpenTagLine "<br>" = false ∧ isCloseTagLine "<br>" = false ∧
    isOpenTagLine "<ul>" = true ∧ isCloseTagLine "<ul>" = false ∧
    isOpenTagLine "<ol>" = true ∧ isCloseTagLine "<ol>" = false ∧
    isOpenTagLine "</ul>" = false ∧ isCloseTagLine "</ul>" = true ∧
    isOpenTagLine "</ol>" = false ∧ isCloseTagLine "</ol>" = true := by
  decide


set_option maxHeartbeats 1600000 in
theorem processLines_balanced (ls : List (List Char)) : ∀ (u o : Bool),
    (processLines ls u o).countP isCloseTagLine =
      (processLines ls u o).countP isOpenTagLine +
        (if u then 1 else 0) + (if o then 1 else 0) := by
  induction ls with
  | nil =>
    intro u o
    cases u <;> cases o <;>
      simp [processLines, List.countP_append, List.countP_cons, tag_const_facts.2.2.2.2.2.2.2.1,
        tag_const_facts.2.2.2.2.2.2.2.2.1, tag_const_facts.2.2.2.2.2.2.1,
        tag_const_facts.2.2.2.2.2.2.2.2.2]
  | cons line rest ih =>
    intro u o
    simp only [processLines]
    cases hU : is_ul_item (pyStripL line) <;> cases hO : is_ol_item (pyStripL line) <;>
      cases u <;> cases o <;>
        (simp only [hU, hO, Bool.and_true, Bool.and_false, Bool.true_and, Bool.false_and,
           Bool.not_true, Bool.not_false, if_true, if_false]
         split_ifs <;>
           (simp [List.countP_append, List.countP_cons, ih, isOpenTagLine_h, isCloseTagLine_h,
             isOpenTagLine_l, isCloseTagLine_l, isOpenTagLine_d, isCloseTagLine_d,
             tag_const_facts.1, tag_const_facts.2.1, tag_const_facts.2.2.1,
             tag_const_facts.2.2.2.1, tag_const_facts.2.2.2.2.1, tag_const_facts.2.2.2.2.2.1,
             tag_const_facts.2.2.2.2.2.2.1, tag_const_facts.2.2.2.2.2.2.2.1,
             tag_const_facts.2.2.2.2.2.2.2.2.1, tag_const_facts.2.2.2.2.2.2.2.2.2]
            try omega
            try exact False.elim (by assumption)))

/-- Counterexample to claim C4 as stated: the encoder does not escape
HTML in the input text, so the input `<ul>` yields `<div><ul></div>`,
whose substring count of list-opening tags (1) differs from its count
of list-closing tags (0). -/
theorem C4_counterexample :
    markdown_to_html "<ul>" = "<div><ul></div>" ∧
    openTagSubstrCount (markdown_to_html "<ul>") = 1 ∧
    closeTagSubstrCount (markdown_to_html "<ul>") = 0 := by
  refine ⟨by decide, by decide, by decide⟩

/-- Claim C4 as amended: among the HTML lines the encoder emits, the
number of list-opening tag lines (`<ul>`, `<ol>`) always equals the
number of list-closing tag lines (`</ul>`, `</ol>`) — every list
container the encoder opens is closed, including at end of input; the
raw substring counts can differ only because literal tag text in the
input passes through unescaped inside content lines. -/
theorem C4_amended : ∀ text : String,
    (markdownHtmlLines text).countP isOpenTagLine =
      (markdownHtmlLines text).countP isCloseTagLine := by
  intro text
  unfold markdownHtmlLines
  split
  · rfl
  · have h := processLines_balanced (splitOnChar '\n' text.data) false false
    simpa using h.symm

/-! ## Claim C2 -/

/-- Counterexample to claim C2: for the document `# Title` the Codec's
own output is `<h1>Title</h1>`, but the decoder reduces headings to
their bare text, so re-encoding produces `<div>Title</div>` — the
visible structure (element sequence with nesting depths) changes from
`h1` to `div`. -/
theorem C2_counterexample :
    markdown_to_html "# Title" = "<h1>Title</h1>" ∧
    html_to_markdown (markdown_to_html "# Title") = "Title" ∧
    markdown_to_html (html_to_markdown (markdown_to_html "# Title")) = "<div>Title</div>" ∧
    elemStructure (markdown_to_html "# Title") = [("h1", 0)] ∧
    elemStructure (markdown_to_html (html_to_markdown (markdown_to_html "# Title"))) =
      [("div", 0)] ∧
    [(("h1", 0) : String × Nat)] ≠ [("div", 0)] := by
  refine ⟨by decide, by decide, by decide, by decide, by decide, by decide⟩

-- helper lemmas for the amended claim
/-- Rebuilding a string from its character data is the identity. -/
theorem mkData (s : String) : String.mk s.data = s := by
  cases s
  rfl

/-- Splitting on a separator that does not occur yields one piece. -/
theorem splitOnChar_single (sep : Char) (l : List Char) (h : sep ∉ l) :
    splitOnChar sep l = [l] := by
  induction l with
  | nil => rfl
  | cons c rest ih =>
    have hc : c ≠ sep := fun e => h (e ▸ List.mem_cons_self c rest)
    have hr : sep ∉ rest := fun m => h (List.mem_cons_of_mem c m)
    simp [splitOnChar, hc, ih hr]

/-- `dropWhile` is the identity when the predicate fails everywhere. -/
theorem dropWhile_id_of_false {p : Char → Bool} {l : List Char}
    (h : ∀ c ∈ l, p c = false) : l.dropWhile p = l := by
  cases l with
  | nil => rfl
  | cons c rest => simp [List.dropWhile, h c (List.mem_cons_self c rest)]

/-- Stripping is the identity on whitespace-free text. -/
theorem pyStripL_id (l : List Char) (h : ∀ c ∈ l, isPyWs c = false) : pyStripL l = l := by
  unfold pyStripL
  rw [dropWhile_id_of_false h, dropWhile_id_of_false, List.reverse_reverse]
  intro c hc
  exact h c (List.mem_reverse.mp hc)

/-- A pattern containing a character foreign to `l` is not a prefix of
`l`. -/
theorem startsWithL_false_of_no_mem (pat l : List Char) (x : Char) (hx : x ∈ pat)
    (hl : ∀ c ∈ l, c ≠ x) : startsWithL pat l = false := by
  unfold startsWithL
  rw [decide_eq_false_iff_not]
  intro he
  have hmem : x ∈ l.take pat.length := by
    rw [he]
    exact hx
  exact hl x ((List.take_sublist pat.length l).mem hmem) rfl

/-- The single-delimiter pass leaves delimiter-free text unchanged. -/
theorem subSingleGo_id (d : Char) (tag : String) :
    ∀ (fuel : Nat) (l : List Char), d ∉ l → subSingleGo d tag fuel l = l := by
  intro fuel
  induction fuel with
  | zero => intro l _; rfl
  | succ f ih =>
    intro l hd
    cases l with
    | nil => rfl
    | cons c rest =>
      have hc : c ≠ d := fun e => hd (e ▸ List.mem_cons_self c rest)
      have hr : d ∉ rest := fun m => hd (List.mem_cons_of_mem c m)
      simp [subSingleGo, hc, ih rest hr]

/-- The double-delimiter pass leaves delimiter-free text unchanged. -/
theorem subDoubleGo_id (d : Char) (tag : String) :
    ∀ (fuel : Nat) (l : List Char), d ∉ l → subDoubleGo d tag fuel l = l := by
  intro fuel
  induction fuel with
  | zero => intro l _; rfl
  | succ f ih =>
    intro l hd
    cases l with
    | nil => rfl
    | cons c rest =>
      have hc : c ≠ d := fun e => hd (e ▸ List.mem_cons_self c rest)
      have hr : d ∉ rest := fun m => hd (List.mem_cons_of_mem c m)
      simp [subDoubleGo, hc, ih rest hr]

/-- The link pass leaves bracket-free text unchanged. -/
theorem subLinkGo_id :
    ∀ (fuel : Nat) (l : List Char), '[' ∉ l → subLinkGo fuel l = l := by
  intro fuel
  induction fuel with
  | zero => intro l _; rfl
  | succ f ih =>
    intro l hd
    cases l with
    | nil => rfl
    | cons c rest =>
      have hc : c ≠ '[' := fun e => hd (e ▸ List.mem_cons_self c rest)
      have hr : '[' ∉ rest := fun m => hd (List.mem_cons_of_mem c m)
      simp [subLinkGo, hc, ih rest hr]

/-- `_convert_inline` is the identity on text with no Markdown
delimiters. -/
theorem convert_inline_id (s : String)
    (h : ∀ c ∈ s.data, plainChar c = true) : _convert_inline s = s := by
  have hmem : ∀ (x : Char), (x = '`' ∨ x = '*' ∨ x = '_' ∨ x = '[') → x ∉ s.data := by
    intro x hx hm
    have := h x hm
    rcases hx with rfl | rfl | rfl | rfl <;> simp [plainChar] at this
  unfold _convert_inline subSingle subDouble subLink
  rw [subSingleGo_id _ _ _ _ (hmem '`' (by tauto))]
  rw [subDoubleGo_id _ _ _ _ (hmem '*' (by tauto))]
  rw [subDoubleGo_id _ _ _ _ (hmem '_' (by tauto))]
  rw [subSingleGo_id _ _ _ _ (hmem '*' (by tauto))]
  rw [subSingleGo_id _ _ _ _ (hmem '_' (by tauto))]
  rw [subLinkGo_id _ _ (hmem '[' (by tauto))]

/-- A line without whitespace cannot match the ordered-list marker
(the marker requires a whitespace character after the period). -/
theorem olMarkLen_zero (l : List Char) (h : ∀ c ∈ l, isPyWs c = false) :
    olMarkLen l = 0 := by
  simp only [olMarkLen]
  split
  · rename_i w rest heq
    have hw : w ∈ l := by
      have : w ∈ l.drop (l.takeWhile Char.isDigit).length := by
        rw [heq]
        simp
      exact (List.drop_sublist _ l).mem this
    simp [h w hw]
  · rfl

/-- Plain characters are not whitespace. -/
theorem plain_no_ws {s : String} (h : ∀ c ∈ s.data, plainChar c = true) :
    ∀ c ∈ s.data, isPyWs c = false := by
  intro c hc
  have := h c hc
  simp [plainChar] at this
  tauto

/-- On a non-empty single-line document of plain characters, `encode`
produces exactly one `div` block around the unchanged text. -/
theorem encode_plain (s : String) (hne : s.data ≠ [])
    (h : ∀ c ∈ s.data, plainChar c = true) :
    markdown_to_html s = String.mk ("<div>".data ++ s.data ++ "</div>".data) := by
  have hws := plain_no_ws h
  have hnosp : ∀ c ∈ s.data, c ≠ ' ' := by
    intro c hc e
    have := hws c hc
    rw [e] at this
    simp [isPyWs] at this
  have hnl : '\n' ∉ s.data := by
    intro hm
    have := hws '\n' hm
    simp [isPyWs] at this
  have hstrip : pyStripL s.data = s.data := pyStripL_id s.data hws
  have hU : is_ul_item s.data = false := by
    unfold is_ul_item
    rw [startsWithL_false_of_no_mem "- ".data s.data ' ' (by decide) hnosp,
        startsWithL_false_of_no_mem "* ".data s.data ' ' (by decide) hnosp]
    rfl
  have hO : is_ol_item s.data = false := by
    unfold is_ol_item
    simp [olMarkLen_zero s.data hws]
  have h3 : startsWithL "### ".data s.data = false := by
    exact startsWithL_false_of_no_mem _ _ ' ' (by decide) hnosp
  have h2 : startsWithL "## ".data s.data = false := by
    exact startsWithL_false_of_no_mem _ _ ' ' (by decide) hnosp
  have h1 : startsWithL "# ".data s.data = false := by
    exact startsWithL_false_of_no_mem _ _ ' ' (by decide) hnosp
  unfold markdown_to_html markdownHtmlLines
  rw [if_neg hne, if_neg hne, splitOnChar_single '\n' s.data hnl]
  simp only [processLines, hstrip, hU, hO, h1, h2, h3, Bool.and_false, Bool.not_false,
    Bool.false_and, Bool.and_true, if_neg hne, if_false, Bool.false_eq_true, ite_false]
  rw [convert_inline_id (String.mk s.data) (by simpa using h)]
  simp [pyJoin]

/-- One text-mode scanner step on a non-tag character. -/
theorem tokenizeAux_cons_text (c : Char) (rest buf : List Char) (hc : c ≠ '<') :
    tokenizeAux (c :: rest) buf false = tokenizeAux rest (buf ++ [c]) false := by
  simp [tokenizeAux, hc]

/-- The text-mode scanner step at `<`: flush the text run. -/
theorem tokenizeAux_cons_lt (rest buf : List Char) :
    tokenizeAux ('<' :: rest) buf false =
      (if buf = [] then [] else [HTok.text (String.mk buf)]) ++ tokenizeAux rest [] true := by
  simp [tokenizeAux]

/-- One tag-mode scanner step before the closing `>`. -/
theorem tokenizeAux_tag_step (c : Char) (rest buf : List Char) (hc : c ≠ '>') :
    tokenizeAux (c :: rest) buf true = tokenizeAux rest (buf ++ [c]) true := by
  simp [tokenizeAux, hc]

/-- The tag-mode scanner step at `>`: emit the tag token. -/
theorem tokenizeAux_tag_close (rest buf : List Char) :
    tokenizeAux ('>' :: rest) buf true = parseTagTok buf :: tokenizeAux rest [] false := by
  simp [tokenizeAux]

/-- The scanner accumulates a whole `<`-free run into the buffer. -/
theorem tokenizeAux_text_run (s : List Char) :
    ∀ (buf rest : List Char), '<' ∉ s →
      tokenizeAux (s ++ '<' :: rest) buf false = tokenizeAux ('<' :: rest) (buf ++ s) false := by
  induction s with
  | nil =>
    intro buf rest _
    simp
  | cons c s' ih =>
    intro buf rest hs
    have hc : c ≠ '<' := fun e => hs (e ▸ List.mem_cons_self c s')
    have hr : '<' ∉ s' := fun m => hs (List.mem_cons_of_mem c m)
    rw [List.cons_append, tokenizeAux_cons_text c _ buf hc, ih (buf ++ [c]) rest hr]
    simp

/-- Decoding a single `div` block wrapping tag-free text returns the
text. -/
theorem decode_of_encoded_div (s : String) (hne : s.data ≠ [])
    (hlt : '<' ∉ s.data) :
    html_to_markdown (String.mk ("<div>".data ++ s.data ++ "</div>".data)) = s := by
  have hB : ("</div>" : String).data = '<' :: "/div>".data := rfl
  have htok : tokenizeHtml ("<div>".data ++ s.data ++ "</div>".data) =
      [HTok.tagOpen "div" "", HTok.text (String.mk s.data), HTok.tagClose "div"] := by
    show tokenizeAux ('<' :: ('d' :: 'i' :: 'v' :: '>' :: (s.data ++ "</div>".data))) [] false = _
    rw [tokenizeAux_cons_lt, if_pos rfl,
        tokenizeAux_tag_step 'd' _ _ (by decide),
        tokenizeAux_tag_step 'i' _ _ (by decide),
        tokenizeAux_tag_step 'v' _ _ (by decide),
        tokenizeAux_tag_close, hB,
        tokenizeAux_text_run s.data [] ("/div>".data) hlt,
        tokenizeAux_cons_lt]
    simp only [List.nil_append]
    rw [if_neg hne,
        tokenizeAux_tag_step '/' _ _ (by decide),
        tokenizeAux_tag_step 'd' _ _ (by decide),
        tokenizeAux_tag_step 'i' _ _ (by decide),
        tokenizeAux_tag_step 'v' _ _ (by decide),
        tokenizeAux_tag_close]
    rfl
  unfold html_to_markdown parseHtml
  rw [htok]
  simp only [buildNodes, List.foldl, buildStep, attachNode]
  simp only [List.length_nil, closeAllGo, List.nil_append]
  simp only [List.map, topConvert, _convert_element, convertChildren, convertChild]
  simp [pyJoin, mkData]

/-- Claim C2 as amended: the re-encoding law
`encode (decode (encode x)) = encode x` holds (byte for byte, hence
with the same element order and nesting depth) for single-line
documents of plain characters — no Markdown delimiters, no `<`, no `&`,
and no character of Python's whitespace class (ASCII or Unicode: a
whitespace-only line such as `"\u00A0"` is blanked by `strip()` and
encoded as `<br>`, which decodes to an empty document, so whitespace
must be excluded). In general the law fails: headings are decoded to bare text
(see the counterexample), the `\n` text nodes between top-level
elements decode to extra blank lines that re-encode as `<br>` elements,
and code spans are decoded to bare text. -/
theorem C2_amended : ∀ s : String, s.data ≠ [] → (∀ c ∈ s.data, plainChar c = true) →
    html_to_markdown (markdown_to_html s) = s ∧
    markdown_to_html (html_to_markdown (markdown_to_html s)) = markdown_to_html s := by
  intro s hne h
  have hlt : '<' ∉ s.data := by
    intro hm
    have := h '<' hm
    simp [plainChar] at this
  have he := encode_plain s hne h
  have hd : html_to_markdown (markdown_to_html s) = s := by
    rw [he]
    exact decode_of_encoded_div s hne hlt
  exact ⟨hd, by rw [hd]⟩

/-- Witness for C2 at the concrete document `hello`. -/
theorem C2_witness :
    ("hello" : String).data ≠ [] ∧ (∀ c ∈ ("hello" : String).data, plainChar c = true) ∧
    html_to_markdown (markdown_to_html "hello") = "hello" ∧
    markdown_to_html (html_to_markdown (markdown_to_html "hello")) = markdown_to_html "hello" :=
  ⟨by decide, by decide,
   (C2_amended "hello" (by decide) (by decide)).1,
   (C2_amended "hello" (by decide) (by decide)).2⟩

end AppleNotesCLI
